import Mathlib

/-!
Verification of the campaign planner/executor pipeline.

Shallow embedding conventions:
 - Timestamps are embedded as `Int` (seconds); `datetime.fromisoformat` /
   `isoformat` round-trips disappear, `timedelta(days=i)` becomes
   `i * secondsPerDay`, and Python's comparison / string-sort of uniformly
   formatted ISO timestamps coincides with the `Int` order.
 - Python dicts used as string-keyed maps become association lists
   (`List (String × _)`); `d.get(k, default)` becomes `(l.lookup k).getD default`.
 - Python float arithmetic in the simulator is embedded as exact rational
   arithmetic over `ℚ`; `int(x)` truncation is `pyInt`, `round(x)` is `pyRound`
   (round-half-to-even, as Python's `round`). Values of `random.random()` are
   taken as arbitrary rationals supplied as parameters.
 - Python's process-wide `hash` on strings is an arbitrary function parameter
   `hash : String → Int`; `%` on `Int` is Lean's `emod`, which agrees with
   Python's `%` for positive moduli.
-/

/-- Seconds per day, the unit behind `timedelta(days=...)` in the embedding. -/
def secondsPerDay : Int := 86400

/-- Embedding of the `CampaignEvent` dataclass of `calendar_manager.py`
(lines 21-34).  The dataclass defaults are `status="Scheduled"` and
`performance_metrics=None`, which `__post_init__` turns into the empty dict. -/
structure CampaignEvent where
  campaign_id : String
  platform : String
  title : String
  content : String
  scheduled_time : Int
  status : String := "Scheduled"
  performance_metrics : List (String × Int) := []
deriving DecidableEq, Repr

/-- Events produced for one platform by one call of
`schedule_campaign_across_platforms` (`calendar_manager.py` lines 62-101):
the body of the `for platform in platforms` loop, split by frequency. -/
def eventsForPlatform (cid title content : String) (start : Int) (freq : String)
    (p : String) : List CampaignEvent :=
  if freq = "once" then
    [{ campaign_id := cid, platform := p, title := title, content := content,
       scheduled_time := start }]
  else if freq = "daily" then
    (List.range 7).map (fun (i : Nat) =>
      { campaign_id := cid ++ "_day" ++ toString (i + 1), platform := p,
        title := title ++ " - Day " ++ toString (i + 1), content := content,
        scheduled_time := start + (i : Int) * secondsPerDay })
  else if freq = "weekly" then
    (List.range 4).map (fun (i : Nat) =>
      { campaign_id := cid ++ "_week" ++ toString (i + 1), platform := p,
        title := title ++ " - Week " ++ toString (i + 1), content := content,
        scheduled_time := start + (i : Int) * (7 * secondsPerDay) })
  else []

/-- Embedding of `CampaignCalendar.schedule_campaign_across_platforms`
(`calendar_manager.py` lines 49-103).  The Python loop appends every created
event both to `self.events` (via `add_event`) and to the returned `events`
list, in the same platform-major, occurrence-minor order; the result is
`(updated calendar event list, returned events)`. -/
def schedule_campaign_across_platforms (cal : List CampaignEvent) (cid title : String)
    (platforms : List String) (content_per_platform : List (String × String))
    (start : Int) (freq : String) : List CampaignEvent × List CampaignEvent :=
  let newEvents := platforms.flatMap (fun p =>
    eventsForPlatform cid title ((content_per_platform.lookup p).getD "") start freq p)
  (cal ++ newEvents, newEvents)

/-- Embedding of `CampaignCalendar.execute_event` (`calendar_manager.py`
lines 116-125): sets status `"Executed"` and the four hash-derived metrics. -/
def execute_event (hash : String → Int) (e : CampaignEvent) : CampaignEvent :=
  { e with
    status := "Executed",
    performance_metrics := [
      ("reach", 5000 + hash e.campaign_id % 10000),
      ("engagement", 250 + hash e.campaign_id % 1000),
      ("clicks", 50 + hash e.campaign_id % 500),
      ("conversions", 5 + hash e.campaign_id % 50)] }

/-- Comparison of events by scheduled time, the sort key used by
`get_upcoming_events` and `get_calendar_view` (string-sorting uniformly
formatted ISO timestamps coincides with this order in the embedding). -/
def timeLE (a b : CampaignEvent) : Prop := a.scheduled_time ≤ b.scheduled_time

instance : DecidableRel timeLE := fun a b => Int.decLe a.scheduled_time b.scheduled_time

instance : IsTotal CampaignEvent timeLE := ⟨fun a b => Int.le_total _ _⟩

instance : IsTrans CampaignEvent timeLE := ⟨fun _ _ _ h h' => le_trans h h'⟩

/-- Embedding of `CampaignCalendar.get_upcoming_events` (`calendar_manager.py`
lines 105-114): keep events with `now <= t <= now + days`, then sort by
scheduled time.  Python's `sorted` is a stable sort; any sort producing a
sorted permutation (here insertion sort) is observationally the same for the
properties below. -/
def get_upcoming_events (events : List CampaignEvent) (now days : Int) :
    List CampaignEvent :=
  List.insertionSort timeLE (events.filter (fun e =>
    now ≤ e.scheduled_time ∧ e.scheduled_time ≤ now + days * secondsPerDay))

/-- The sequence of events rendered (one line each, in order) by
`CampaignCalendar.get_calendar_view` (`calendar_manager.py` lines 127-147):
events in `[start, start + days]`, sorted by scheduled time. -/
def calendar_view_events (events : List CampaignEvent) (start days : Int) :
    List CampaignEvent :=
  List.insertionSort timeLE (events.filter (fun e =>
    start ≤ e.scheduled_time ∧ e.scheduled_time ≤ start + days * secondsPerDay))

/-- The invariant claimed of every event: non-empty metrics exactly when
executed. -/
def eventInv (e : CampaignEvent) : Prop :=
  e.performance_metrics ≠ [] ↔ e.status = "Executed"

instance : DecidablePred eventInv := fun e => by
  unfold eventInv
  infer_instance

/-- The calendar-mutating operations of `CampaignCalendar` reachable from
outside: `add_event` (any event value), `schedule_campaign_across_platforms`,
and `execute_event` on the event object at position `i` of the list (Python
mutates the aliased object in place; an out-of-range index models executing
an event object that is not in the calendar, which leaves the list
unchanged). -/
inductive CalOp where
  | add (e : CampaignEvent)
  | schedule (cid title : String) (platforms : List String)
      (content_per_platform : List (String × String)) (start : Int) (freq : String)
  | execute (i : Nat)
deriving Repr

/-- In-place update of the element at one position, as Python mutation of the
aliased list element. -/
def modifyAt (f : CampaignEvent → CampaignEvent) : Nat → List CampaignEvent →
    List CampaignEvent
  | _, [] => []
  | 0, e :: rest => f e :: rest
  | n + 1, e :: rest => e :: modifyAt f n rest

/-- One calendar operation applied to the calendar's event list. -/
def applyOp (hash : String → Int) (events : List CampaignEvent) :
    CalOp → List CampaignEvent
  | CalOp.add e => events ++ [e]
  | CalOp.schedule cid title ps cpp start freq =>
      (schedule_campaign_across_platforms events cid title ps cpp start freq).1
  | CalOp.execute i => modifyAt (execute_event hash) i events

/-- A sequence of calendar operations applied to the empty calendar. -/
def applyOps (hash : String → Int) (ops : List CalOp) : List CampaignEvent :=
  ops.foldl (applyOp hash) []

/-- Restriction on an operation: an externally added event must itself satisfy
the metrics/status invariant (freshly constructed events with the dataclass
defaults do).  `schedule` and `execute` are unrestricted. -/
def opOK : CalOp → Prop
  | CalOp.add e => eventInv e
  | _ => True

instance : DecidablePred opOK := fun op => by
  cases op <;> (unfold opOK; infer_instance)

/-- Embedding of the JSON document written by `CampaignCalendar.export_calendar`
(`calendar_manager.py` lines 149-158); `asdict` serializes each event
field-for-field, modelled as the event itself. -/
structure CalendarExport where
  exported_at : String
  total_campaigns : Nat
  events : List CampaignEvent
deriving Repr

/-- Embedding of `CampaignCalendar.export_calendar` (file writing aside):
the JSON data built at lines 151-155. -/
def export_calendar (now : String) (events : List CampaignEvent) : CalendarExport :=
  { exported_at := now, total_campaigns := events.length, events := events }

/-- Python `int(x)` on the exact rational value: truncation toward zero. -/
def pyInt (q : ℚ) : Int := if 0 ≤ q then ⌊q⌋ else ⌈q⌉

/-- Python `round(x)` on the exact rational value: round half to even. -/
def pyRound (q : ℚ) : Int :=
  if q - ⌊q⌋ < 1/2 then ⌊q⌋
  else if 1/2 < q - ⌊q⌋ then ⌊q⌋ + 1
  else if 2 ∣ ⌊q⌋ then ⌊q⌋ else ⌊q⌋ + 1

/-- Per-platform simulation profile (`campaign_executor.py` lines 18-46). -/
structure PlatformConfig where
  base_reach : ℚ
  engagement_rate : ℚ
  avg_followers : ℚ
deriving Repr

/-- Embedding of `SocialMediaSimulator._initialize_platforms`
(`campaign_executor.py` lines 18-46); insertion order of the dict kept. -/
def platform_configs : List (String × PlatformConfig) :=
  [("LinkedIn", ⟨10000, 25/1000, 5000⟩),
   ("Twitter", ⟨15000, 35/1000, 8000⟩),
   ("Instagram", ⟨20000, 45/1000, 12000⟩),
   ("Facebook", ⟨25000, 20/1000, 15000⟩),
   ("TikTok", ⟨30000, 55/1000, 20000⟩)]

/-- Fallback profile for an unknown platform: `post_to_platform` falls back to
`base_reach=5000`, `engagement_rate=0.03` (`campaign_executor.py` lines 52-54);
`avg_followers` is never read on this path and is set to 0. -/
def defaultConfig : PlatformConfig := ⟨5000, 3/100, 0⟩

/-- The profile used by `post_to_platform` for a platform name:
`self.platform_configs.get(platform, {})` followed by per-field defaults. -/
def getConfig (platform : String) : PlatformConfig :=
  (platform_configs.lookup platform).getD defaultConfig

/-- Line `reach = int(base_reach * (0.8 + random.random() * 0.4))` of
`post_to_platform` (`campaign_executor.py` line 57); `r1` is the random draw. -/
def sim_reach (platform : String) (r1 : ℚ) : Int :=
  pyInt ((getConfig platform).base_reach * (8/10 + r1 * (4/10)))

/-- Line `engagements = int(reach * engagement_rate * (0.7 + random.random() * 0.6))`
(`campaign_executor.py` line 58). -/
def sim_engagements (platform : String) (r1 r2 : ℚ) : Int :=
  pyInt ((sim_reach platform r1 : ℚ) * (getConfig platform).engagement_rate
    * (7/10 + r2 * (6/10)))

/-- Line `clicks = int(engagements * 0.2 * (0.5 + random.random()))`
(`campaign_executor.py` line 59). -/
def sim_clicks (platform : String) (r1 r2 r3 : ℚ) : Int :=
  pyInt ((sim_engagements platform r1 r2 : ℚ) * (2/10) * (5/10 + r3))

/-- Line `conversions = int(clicks * 0.05 * (0.3 + random.random()))`
(`campaign_executor.py` line 60). -/
def sim_conversions (platform : String) (r1 r2 r3 r4 : ℚ) : Int :=
  pyInt ((sim_clicks platform r1 r2 r3 : ℚ) * (5/100) * (3/10 + r4))

/-- The `metrics` sub-dict of a simulated post (`campaign_executor.py`
lines 69-77). -/
structure PostMetrics where
  reach : Int
  engagements : Int
  likes : Int
  comments : Int
  shares : Int
  clicks : Int
  conversions : Int
deriving DecidableEq, Repr

/-- A post record as built by `SocialMediaSimulator.post_to_platform`
(`campaign_executor.py` lines 62-78). -/
structure PostData where
  post_id : String
  platform : String
  content_preview : String
  posted_at : String
  scheduled_time : String
  status : String
  metrics : PostMetrics
deriving DecidableEq, Repr

/-- Embedding of `SocialMediaSimulator.post_to_platform` (`campaign_executor.py`
lines 48-81).  `r1`-`r4` are the four `random.random()` draws in program
order; `now` stands for `datetime.now()` rendered as in the source. -/
def post_to_platform (r1 r2 r3 r4 : ℚ) (now platform content scheduled_time : String) :
    PostData :=
  { post_id := platform ++ "_" ++ now,
    platform := platform,
    content_preview := content.take 100,
    posted_at := now,
    scheduled_time := scheduled_time,
    status := "live",
    metrics := {
      reach := sim_reach platform r1,
      engagements := sim_engagements platform r1 r2,
      likes := pyInt ((sim_engagements platform r1 r2 : ℚ) * (7/10)),
      comments := pyInt ((sim_engagements platform r1 r2 : ℚ) * (2/10)),
      shares := pyInt ((sim_engagements platform r1 r2 : ℚ) * (1/10)),
      clicks := sim_clicks platform r1 r2 r3,
      conversions := sim_conversions platform r1 r2 r3 r4 } }

/-- Result shape of `SocialMediaSimulator.get_platform_analytics`: the zero
record returned at `campaign_executor.py` line 98, or the full aggregate of
lines 105-115. -/
inductive PlatformAnalytics where
  | noHistory (platform : String)
  | withHistory (platform : String) (posts_count : Nat)
      (total_reach total_engagements total_clicks total_conversions : Int)
      (avg_engagement_rate ctr conversion_rate : ℚ)
deriving Repr

/-- Embedding of `SocialMediaSimulator.get_platform_analytics`
(`campaign_executor.py` lines 93-115) over the executed-campaigns history. -/
def get_platform_analytics (history : List PostData) (platform : String) :
    PlatformAnalytics :=
  let platform_posts := history.filter (fun p => p.platform == platform)
  if platform_posts = [] then PlatformAnalytics.noHistory platform
  else
    let total_reach := (platform_posts.map (fun p => p.metrics.reach)).sum
    let total_engagements := (platform_posts.map (fun p => p.metrics.engagements)).sum
    let total_clicks := (platform_posts.map (fun p => p.metrics.clicks)).sum
    let total_conversions := (platform_posts.map (fun p => p.metrics.conversions)).sum
    PlatformAnalytics.withHistory platform platform_posts.length
      total_reach total_engagements total_clicks total_conversions
      (if 0 < total_reach then (total_engagements : ℚ) / total_reach * 100 else 0)
      (if 0 < total_reach then (total_clicks : ℚ) / total_reach * 100 else 0)
      (if 0 < total_clicks then (total_conversions : ℚ) / total_clicks * 100 else 0)

/-- Embedding of `SocialMediaSimulator.get_all_analytics` (`campaign_executor.py`
lines 117-125): one entry per configured platform, in configuration order. -/
def get_all_analytics (history : List PostData) : List (String × PlatformAnalytics) :=
  platform_configs.map (fun pc => (pc.1, get_platform_analytics history pc.1))

/-- One entry of `CampaignExecutor.execution_log` (`campaign_executor.py`
lines 162-167); the wall-clock `execution_time` field is outside the embedding. -/
structure ExecLogEntry where
  campaign_id : String
  platform : String
  status : String
deriving DecidableEq, Repr

/-- The platform loop of `CampaignExecutor.execute_campaign`
(`campaign_executor.py` lines 154-167).  `u` is the stream of `random.random()`
draws (four per executed post, starting at index `4*k`); returns the
`posts` list of the execution result and the log entries appended, both in
loop order. -/
def execute_campaign_go (u : Nat → ℚ) (now cid start_time : String)
    (cpp : List (String × String)) :
    List String → Nat → List PostData × List ExecLogEntry
  | [], _ => ([], [])
  | p :: rest, k =>
    let content := (cpp.lookup p).getD ""
    if content = "" then execute_campaign_go u now cid start_time cpp rest k
    else
      let post := post_to_platform (u (4*k)) (u (4*k+1)) (u (4*k+2)) (u (4*k+3))
        now p content start_time
      let r := execute_campaign_go u now cid start_time cpp rest (k+1)
      (post :: r.1, { campaign_id := cid, platform := p, status := "executed" } :: r.2)

/-- Embedding of `CampaignExecutor.execute_campaign` (`campaign_executor.py`
lines 135-169): the `posts` list of the returned execution result and the
execution-log entries appended by the call. -/
def execute_campaign (u : Nat → ℚ) (now cid start_time : String)
    (platforms : List String) (cpp : List (String × String)) :
    List PostData × List ExecLogEntry :=
  execute_campaign_go u now cid start_time cpp platforms 0

/-- The fields of a campaign plan read by `CampaignOrchestrator.schedule_campaigns`
(`orchestrator.py` lines 70-81, 168-175).  The remaining plan fields
(audience, goal, budget, duration, strategies) are never read on the
scheduling path and are left out of the embedding. -/
structure Campaign where
  name : String
  platforms : List String
  content : List (String × String)
  start_date : Int
deriving Repr

/-- Embedding of `CampaignOrchestrator.schedule_campaigns` (`orchestrator.py`
lines 149-178) acting on the campaign registry and the calendar's event
list: returns the scheduled events and the updated calendar list.  The
printed warning on the not-found path is outside the embedding. -/
def schedule_campaigns (campaigns : List (String × Campaign))
    (cal : List CampaignEvent) (cid freq : String) :
    List CampaignEvent × List CampaignEvent :=
  match campaigns.lookup cid with
  | none => ([], cal)
  | some c =>
      let r := schedule_campaign_across_platforms cal cid c.name c.platforms
        c.content c.start_date freq
      (r.2, r.1)

/-- One platform's analytics entry as consumed by
`PerformanceAnalyzer.generate_performance_report` (`performance_tracker.py`
lines 166-177): every key is read with `data.get(key, 0)`, so the record
carries all fields with those defaults already applied. -/
structure PlatformData where
  posts_count : Int
  total_reach : Int
  total_engagements : Int
  avg_engagement_rate : ℚ
  total_clicks : Int
  ctr : ℚ
  total_conversions : Int
  conversion_rate : ℚ
deriving Repr

/-- Decimal digits of a natural number, most significant first. -/
def natDigits (n : Nat) : List Char := (toString n).data

/-- Grouping of a reversed digit list into blocks of three with `,`,
the core of Python's `{:,}` format. -/
def group3 : List Char → List Char
  | [] => []
  | [a] => [a]
  | [a, b] => [a, b]
  | [a, b, c] => [a, b, c]
  | a :: b :: c :: d :: rest => a :: b :: c :: ',' :: group3 (d :: rest)

/-- Python `f"{n:,}"` for an integer: thousands separators. -/
def fmtComma (n : Int) : List Char :=
  let grouped := (group3 (natDigits n.natAbs).reverse).reverse
  if n < 0 then '-' :: grouped else grouped

/-- Two-decimal-digit rendering of `k < 100`. -/
def twoDigits (k : Nat) : List Char :=
  if k < 10 then '0' :: natDigits k else natDigits k

/-- Python `f"{q:.2f}"` on the exact rational value: round to two decimals
(half to even, as for floats) and render. -/
def fmt2 (q : ℚ) : List Char :=
  let n := pyRound (q * 100)
  (if n < 0 then ['-'] else []) ++ natDigits (n.natAbs / 100)
    ++ '.' :: twoDigits (n.natAbs % 100)

/-- The `"=" * 80` ruler line. -/
def eq80 : List Char := List.replicate 80 '='

/-- The `"-" * 40` ruler line. -/
def dash40 : List Char := List.replicate 40 '-'

/-- The label opening the conversion-rate line
(`performance_tracker.py` line 177). -/
def convRateLabel : List Char := "  Conv. Rate:        ".data

/-- A line of the report is a conversion-rate line when it starts with the
conversion-rate label. -/
def isConvRateLine (l : List Char) : Prop := convRateLabel <+: l

instance : DecidablePred isConvRateLine := fun l => by
  unfold isConvRateLine
  infer_instance

/-- The CTR line printed for a platform entry (`performance_tracker.py`
line 174). -/
def ctrLine (d : PlatformData) : List Char :=
  "  CTR:               ".data ++ fmt2 d.ctr ++ ['%']

/-- The conversion-rate line printed for a platform entry
(`performance_tracker.py` line 177). -/
def convRateLine (d : PlatformData) : List Char :=
  convRateLabel ++ fmt2 d.conversion_rate ++ ['%']

/-- The lines contributed to the report by one platform entry
(`performance_tracker.py` lines 166-177); the conversion-rate line appears
only when `total_clicks > 0`. -/
def platformSection (p : String) (d : PlatformData) : List (List Char) :=
  [[],
   '📱' :: ' ' :: p.data,
   dash40,
   "  Posts:             ".data ++ (toString d.posts_count).data,
   "  Total Reach:       ".data ++ fmtComma d.total_reach,
   "  Engagements:       ".data ++ fmtComma d.total_engagements,
   "  Engagement Rate:   ".data ++ fmt2 d.avg_engagement_rate ++ ['%'],
   "  Clicks:            ".data ++ fmtComma d.total_clicks,
   ctrLine d,
   "  Conversions:       ".data ++ fmtComma d.total_conversions]
  ++ (if 0 < d.total_clicks then [convRateLine d] else [])

/-- The overall-summary lines (`performance_tracker.py` lines 179-192). -/
def summaryLines (analytics : List (String × PlatformData)) : List (List Char) :=
  let total_reach := (analytics.map (fun pd => pd.2.total_reach)).sum
  let total_engagements := (analytics.map (fun pd => pd.2.total_engagements)).sum
  let total_conversions := (analytics.map (fun pd => pd.2.total_conversions)).sum
  [[], [],
   "📈 OVERALL SUMMARY".data,
   dash40,
   "  Total Reach:       ".data ++ fmtComma total_reach,
   "  Total Engagements: ".data ++ fmtComma total_engagements,
   "  Total Conversions: ".data ++ fmtComma total_conversions]
  ++ (if 0 < total_reach then
        ["  Avg Engagement %:  ".data
          ++ fmt2 ((total_engagements : ℚ) / total_reach * 100) ++ ['%']]
      else [])
  ++ [[], eq80]

/-- Embedding of `PerformanceAnalyzer.generate_performance_report`
(`performance_tracker.py` lines 158-194) as the list of lines of the
returned text (split at the newlines of the source's `+=` pieces);
`genTime` is the rendered `datetime.now()` of the `Generated:` line. -/
def generate_performance_report (genTime : List Char)
    (analytics : List (String × PlatformData)) : List (List Char) :=
  [[], eq80,
   "📊 CAMPAIGN PERFORMANCE REPORT".data,
   eq80, [],
   "Generated: ".data ++ genTime, []]
  ++ analytics.flatMap (fun pd => platformSection pd.1 pd.2)
  ++ summaryLines analytics

/-- An all-zero analytics entry, as produced for a platform with no history
after the report's `data.get(_, 0)` defaulting. -/
def zeroPlatformData : PlatformData :=
  { posts_count := 0, total_reach := 0, total_engagements := 0,
    avg_engagement_rate := 0, total_clicks := 0, ctr := 0,
    total_conversions := 0, conversion_rate := 0 }

/-- Branch of `eventsForPlatform` selected by `frequency="once"`. -/
theorem eventsForPlatform_once (cid title content : String) (start : Int) (p : String) :
    eventsForPlatform cid title content start "once" p =
      [{ campaign_id := cid, platform := p, title := title, content := content,
         scheduled_time := start }] := by
  unfold eventsForPlatform
  rw [if_pos rfl]

/-- Branch of `eventsForPlatform` selected by `frequency="daily"`. -/
theorem eventsForPlatform_daily (cid title content : String) (start : Int) (p : String) :
    eventsForPlatform cid title content start "daily" p =
      (List.range 7).map (fun (i : Nat) =>
        { campaign_id := cid ++ "_day" ++ toString (i + 1), platform := p,
          title := title ++ " - Day " ++ toString (i + 1), content := content,
          scheduled_time := start + (i : Int) * secondsPerDay }) := by
  unfold eventsForPlatform
  rw [if_neg (by decide), if_pos rfl]

/-- Branch of `eventsForPlatform` selected by `frequency="weekly"`. -/
theorem eventsForPlatform_weekly (cid title content : String) (start : Int) (p : String) :
    eventsForPlatform cid title content start "weekly" p =
      (List.range 4).map (fun (i : Nat) =>
        { campaign_id := cid ++ "_week" ++ toString (i + 1), platform := p,
          title := title ++ " - Week " ++ toString (i + 1), content := content,
          scheduled_time := start + (i : Int) * (7 * secondsPerDay) }) := by
  unfold eventsForPlatform
  rw [if_neg (by decide), if_neg (by decide), if_pos rfl]

/-- Length of a flatMap whose blocks all have the same length. -/
theorem flatMap_length_const {α β : Type} (l : List α) (f : α → List β) (k : Nat)
    (h : ∀ a ∈ l, (f a).length = k) : (l.flatMap f).length = k * l.length := by
  induction l with
  | nil => simp
  | cons hd tl ih =>
      simp only [List.flatMap_cons, List.length_append, List.length_cons]
      rw [h hd (List.mem_cons_self hd tl), ih (fun a ha => h a (List.mem_cons_of_mem hd ha))]
      ring

/-- Appending a fixed string on the left is injective. -/
theorem string_append_left_injective (a : String) :
    Function.Injective (fun s => a ++ s) := by
  intro b c h
  have h' : a ++ b = a ++ c := h
  have hd : (a ++ b).data = (a ++ c).data := by rw [h']
  rw [String.data_append, String.data_append] at hd
  exact String.ext (List.append_cancel_left hd)

/-- C3: `execute_event` sets status `"Executed"` and attaches exactly the four
hash-derived metrics (`reach = 5000 + hash(id) mod 10000`,
`engagement = 250 + hash(id) mod 1000`, `clicks = 50 + hash(id) mod 500`,
`conversions = 5 + hash(id) mod 50`); in particular the metrics mapping is
non-empty and the reach value is at least 5000.  This holds for every event
and every hash function, deterministically in `hash(id)`. -/
theorem execute_event_spec (hash : String → Int) (e : CampaignEvent) :
    (execute_event hash e).status = "Executed" ∧
    (execute_event hash e).performance_metrics = [
      ("reach", 5000 + hash e.campaign_id % 10000),
      ("engagement", 250 + hash e.campaign_id % 1000),
      ("clicks", 50 + hash e.campaign_id % 500),
      ("conversions", 5 + hash e.campaign_id % 50)] ∧
    (execute_event hash e).performance_metrics ≠ [] ∧
    (execute_event hash e).performance_metrics.lookup "reach" =
      some (5000 + hash e.campaign_id % 10000) ∧
    5000 ≤ 5000 + hash e.campaign_id % 10000 := by
  refine ⟨rfl, rfl, by simp [execute_event], rfl, ?_⟩
  have h : 0 ≤ hash e.campaign_id % 10000 :=
    Int.emod_nonneg (hash e.campaign_id) (by decide)
  omega

/-- C8: scheduling an unknown campaign id returns an empty event list and
leaves the calendar unchanged. -/
theorem schedule_campaigns_not_found (campaigns : List (String × Campaign))
    (cal : List CampaignEvent) (cid freq : String)
    (h : campaigns.lookup cid = none) :
    schedule_campaigns campaigns cal cid freq = ([], cal) := by
  unfold schedule_campaigns
  rw [h]

/-- Witness for `schedule_campaigns_not_found` at the empty registry. -/
theorem schedule_campaigns_not_found_witness :
    schedule_campaigns [] [] "missing" "once" = ([], []) :=
  schedule_campaigns_not_found [] [] "missing" "once" rfl

/-- C10: the exported JSON document's `total_campaigns` equals the length of
the calendar's event list — the number of scheduled occurrences after any
sequence of calendar operations, not the number of distinct campaigns (a
single daily scheduling of one campaign across `ps` already contributes
`7 * ps.length`) — and its `events` array serializes every event in
insertion order. -/
theorem export_calendar_spec (now : String) (hash : String → Int) (ops : List CalOp)
    (cid title : String) (ps : List String) (cpp : List (String × String)) (start : Int) :
    (export_calendar now (applyOps hash ops)).total_campaigns = (applyOps hash ops).length ∧
    (export_calendar now (applyOps hash ops)).events = applyOps hash ops ∧
    (export_calendar now
        (applyOps hash [CalOp.schedule cid title ps cpp start "daily"])).total_campaigns
      = 7 * ps.length := by
  refine ⟨rfl, rfl, ?_⟩
  show ((schedule_campaign_across_platforms [] cid title ps cpp start "daily").1).length
    = 7 * ps.length
  simp only [schedule_campaign_across_platforms, List.nil_append]
  exact flatMap_length_const ps _ 7 (fun p _ => by rw [eventsForPlatform_daily]; simp)

/-- C5: for a platform with no record in the execution history,
`get_platform_analytics` returns exactly the zero record, and
`get_all_analytics` on an empty history returns one zero entry per configured
platform (5 entries for the 5 built-in platforms), without failing. -/
theorem get_platform_analytics_zero (history : List PostData) (platform : String)
    (h : ∀ p ∈ history, p.platform ≠ platform) :
    get_platform_analytics history platform = PlatformAnalytics.noHistory platform ∧
    get_all_analytics [] = [
      ("LinkedIn", PlatformAnalytics.noHistory "LinkedIn"),
      ("Twitter", PlatformAnalytics.noHistory "Twitter"),
      ("Instagram", PlatformAnalytics.noHistory "Instagram"),
      ("Facebook", PlatformAnalytics.noHistory "Facebook"),
      ("TikTok", PlatformAnalytics.noHistory "TikTok")] ∧
    (get_all_analytics []).length = 5 := by
  refine ⟨?_, rfl, rfl⟩
  have hf : history.filter (fun p => p.platform == platform) = [] := by
    rw [List.filter_eq_nil_iff]
    intro p hp
    simpa using h p hp
  simp [get_platform_analytics, hf]

/-- Witness for `get_platform_analytics_zero` at the empty history. -/
theorem get_platform_analytics_zero_witness :
    get_platform_analytics [] "LinkedIn" = PlatformAnalytics.noHistory "LinkedIn" :=
  (get_platform_analytics_zero [] "LinkedIn" (fun p hp => absurd hp (List.not_mem_nil p))).1

/-- C1 counterexample: on two platforms, the daily expansion produces 14
events whose ids are not pairwise distinct — the ids `c_day1` … `c_day7`
repeat on every platform. -/
theorem schedule_daily_distinct_ids_counterexample :
    (schedule_campaign_across_platforms [] "c" "t" ["A", "B"] [] 0 "daily").2.length = 7 * 2 ∧
    ¬ ((schedule_campaign_across_platforms [] "c" "t" ["A", "B"] [] 0 "daily").2.map
        (fun e => e.campaign_id)).Nodup := by
  constructor
  · decide
  · decide

/-- Nodup of ids built by appending a fixed prefix to the distinct day/week
numerals. -/
theorem nodup_suffixed_ids (pre : String) (k : Nat)
    (h : ((List.range k).map (fun (i : Nat) => toString (i + 1))).Nodup) :
    ((List.range k).map (fun (i : Nat) => pre ++ toString (i + 1))).Nodup := by
  have comp : ((List.range k).map (fun (i : Nat) => pre ++ toString (i + 1)))
      = ((List.range k).map (fun (i : Nat) => toString (i + 1))).map
          (fun s => pre ++ s) := by
    rw [List.map_map]
    rfl
  rw [comp]
  exact h.map (string_append_left_injective pre)

/-- Lists of singleton blocks flatten to a map. -/
theorem flatMap_singleton_eq_map {α β : Type} (l : List α) (f : α → β) :
    l.flatMap (fun a => [f a]) = l.map f := by
  induction l with
  | nil => rfl
  | cons hd tl ih => simp [List.flatMap_cons, ih]

/-- C1 (amended): `schedule_campaign_across_platforms` appends exactly the
events it returns; with `frequency="daily"` it returns `7*N` events
(platform-major, `start + 0..6` days, ids `cid_day{1..7}`, titles suffixed
`" - Day N"`), the 7 ids of each platform block being pairwise distinct —
but the same 7 ids repeat on every platform; with `"weekly"` it returns
`4*N` events with per-block-distinct ids `cid_week{1..4}`; with `"once"`
exactly `N` events, each with id `cid` and scheduled at `start`. -/
theorem schedule_across_platforms_spec (cal : List CampaignEvent) (cid title : String)
    (platforms : List String) (cpp : List (String × String)) (start : Int) :
    (∀ freq, (schedule_campaign_across_platforms cal cid title platforms cpp start freq).1
        = cal ++ (schedule_campaign_across_platforms cal cid title platforms cpp start freq).2) ∧
    ((schedule_campaign_across_platforms cal cid title platforms cpp start "daily").2
        = platforms.flatMap (fun p => (List.range 7).map (fun (i : Nat) =>
            ({ campaign_id := cid ++ "_day" ++ toString (i + 1), platform := p,
               title := title ++ " - Day " ++ toString (i + 1),
               content := (cpp.lookup p).getD "",
               scheduled_time := start + (i : Int) * secondsPerDay } : CampaignEvent)))) ∧
    ((schedule_campaign_across_platforms cal cid title platforms cpp start "daily").2.length
        = 7 * platforms.length) ∧
    ((List.range 7).map (fun (i : Nat) => cid ++ "_day" ++ toString (i + 1))).Nodup ∧
    ((schedule_campaign_across_platforms cal cid title platforms cpp start "weekly").2
        = platforms.flatMap (fun p => (List.range 4).map (fun (i : Nat) =>
            ({ campaign_id := cid ++ "_week" ++ toString (i + 1), platform := p,
               title := title ++ " - Week " ++ toString (i + 1),
               content := (cpp.lookup p).getD "",
               scheduled_time := start + (i : Int) * (7 * secondsPerDay) } : CampaignEvent)))) ∧
    ((schedule_campaign_across_platforms cal cid title platforms cpp start "weekly").2.length
        = 4 * platforms.length) ∧
    ((List.range 4).map (fun (i : Nat) => cid ++ "_week" ++ toString (i + 1))).Nodup ∧
    ((schedule_campaign_across_platforms cal cid title platforms cpp start "once").2
        = platforms.map (fun p =>
            ({ campaign_id := cid, platform := p, title := title,
               content := (cpp.lookup p).getD "", scheduled_time := start } : CampaignEvent))) ∧
    ((schedule_campaign_across_platforms cal cid title platforms cpp start "once").2.length
        = platforms.length) := by
  refine ⟨fun freq => rfl, ?_, ?_, ?_, ?_, ?_, ?_, ?_, ?_⟩
  · simp only [schedule_campaign_across_platforms, eventsForPlatform_daily]
  · simp only [schedule_campaign_across_platforms]
    exact flatMap_length_const platforms _ 7 (fun p _ => by rw [eventsForPlatform_daily]; simp)
  · exact nodup_suffixed_ids (cid ++ "_day") 7 (by decide)
  · simp only [schedule_campaign_across_platforms, eventsForPlatform_weekly]
  · simp only [schedule_campaign_across_platforms]
    exact flatMap_length_const platforms _ 4 (fun p _ => by rw [eventsForPlatform_weekly]; simp)
  · exact nodup_suffixed_ids (cid ++ "_week") 4 (by decide)
  · simp only [schedule_campaign_across_platforms, eventsForPlatform_once]
    exact flatMap_singleton_eq_map platforms _
  · simp only [schedule_campaign_across_platforms]
    rw [flatMap_length_const platforms _ 1 (fun p _ => by rw [eventsForPlatform_once]; rfl)]
    exact Nat.one_mul _

/-- Membership after an in-place update: the element was already there, or it
is the image of an element that was. -/
theorem mem_modifyAt (f : CampaignEvent → CampaignEvent) :
    ∀ (i : Nat) (l : List CampaignEvent) (e : CampaignEvent),
      e ∈ modifyAt f i l → e ∈ l ∨ ∃ x ∈ l, e = f x := by
  intro i l
  induction l generalizing i with
  | nil =>
      intro e he
      rw [show modifyAt f i [] = [] from by cases i <;> rfl] at he
      exact absurd he (List.not_mem_nil e)
  | cons hd tl ih =>
      intro e he
      cases i with
      | zero =>
          rcases List.mem_cons.mp he with rfl | htl
          · exact Or.inr ⟨hd, List.mem_cons_self hd tl, rfl⟩
          · exact Or.inl (List.mem_cons_of_mem hd htl)
      | succ n =>
          rcases List.mem_cons.mp he with rfl | htl
          · exact Or.inl (List.mem_cons_self e tl)
          · rcases ih n e htl with h | ⟨x, hx, rfl⟩
            · exact Or.inl (List.mem_cons_of_mem hd h)
            · exact Or.inr ⟨x, List.mem_cons_of_mem hd hx, rfl⟩

/-- Every event created by the scheduling expansion carries the dataclass
defaults: status `"Scheduled"` and empty metrics. -/
theorem eventsForPlatform_fresh (cid title content : String) (start : Int)
    (freq p : String) :
    ∀ e ∈ eventsForPlatform cid title content start freq p,
      e.status = "Scheduled" ∧ e.performance_metrics = [] := by
  intro e he
  unfold eventsForPlatform at he
  split at he
  · rcases List.mem_singleton.mp he with rfl
    exact ⟨rfl, rfl⟩
  · split at he
    · obtain ⟨i, _, rfl⟩ := List.mem_map.mp he
      exact ⟨rfl, rfl⟩
    · split at he
      · obtain ⟨i, _, rfl⟩ := List.mem_map.mp he
        exact ⟨rfl, rfl⟩
      · exact absurd he (List.not_mem_nil e)

/-- One restricted calendar operation preserves the invariant. -/
theorem applyOp_preserves_inv (hash : String → Int) (evs : List CampaignEvent)
    (op : CalOp) (hinv : ∀ e ∈ evs, eventInv e) (hop : opOK op) :
    ∀ e ∈ applyOp hash evs op, eventInv e := by
  intro e he
  cases op with
  | add e' =>
      rcases List.mem_append.mp he with h | h
      · exact hinv e h
      · rcases List.mem_singleton.mp h with rfl
        exact hop
  | schedule cid title ps cpp start freq =>
      rcases List.mem_append.mp he with h | h
      · exact hinv e h
      · obtain ⟨p, _, hp⟩ := List.mem_flatMap.mp h
        obtain ⟨hs, hm⟩ := eventsForPlatform_fresh cid title _ start freq p e hp
        simp [eventInv, hs, hm]
  | execute i =>
      rcases mem_modifyAt (execute_event hash) i evs e he with h | ⟨x, _, rfl⟩
      · exact hinv e h
      · simp [eventInv, execute_event]

/-- Folding restricted operations preserves the invariant. -/
theorem foldl_applyOp_inv (hash : String → Int) (ops : List CalOp) :
    ∀ evs : List CampaignEvent, (∀ e ∈ evs, eventInv e) →
      (∀ op ∈ ops, opOK op) → ∀ e ∈ ops.foldl (applyOp hash) evs, eventInv e := by
  induction ops with
  | nil => intro evs hinv _ e he; exact hinv e he
  | cons op rest ih =>
      intro evs hinv hops e he
      exact ih (applyOp hash evs op)
        (applyOp_preserves_inv hash evs op hinv (hops op (List.mem_cons_self op rest)))
        (fun o ho => hops o (List.mem_cons_of_mem op ho)) e he

/-- C2 counterexample: `add_event` accepts an arbitrary `CampaignEvent`;
adding a freshly constructed event whose status is `"Executed"` (metrics
left at the default empty dict) produces a reachable state violating the
invariant. -/
theorem calendar_invariant_counterexample :
    ¬ (∀ e ∈ applyOps (fun _ => 0)
        [CalOp.add { campaign_id := "c", platform := "LinkedIn", title := "t",
                     content := "x", scheduled_time := 0, status := "Executed" }],
        eventInv e) := by
  decide

/-- C2 (amended): over every sequence of `add_event`,
`schedule_campaign_across_platforms` and `execute_event` operations from the
empty calendar in which each event passed to `add_event` itself satisfies the
invariant (as freshly constructed events with the dataclass defaults do),
every event of the resulting calendar has non-empty `performance_metrics`
exactly when its status is `"Executed"`. -/
theorem calendar_invariant (hash : String → Int) (ops : List CalOp)
    (hops : ∀ op ∈ ops, opOK op) :
    ∀ e ∈ applyOps hash ops, eventInv e :=
  foldl_applyOp_inv hash ops [] (fun e he => absurd he (List.not_mem_nil e)) hops

/-- Witness for `calendar_invariant` on a concrete operation sequence,
evaluated at the added event. -/
theorem calendar_invariant_witness :
    eventInv { campaign_id := "a", platform := "P", title := "t",
               content := "c", scheduled_time := 5 } :=
  calendar_invariant (fun _ => 1)
    [CalOp.add { campaign_id := "a", platform := "P", title := "t",
                 content := "c", scheduled_time := 5 },
     CalOp.schedule "s" "T" ["LinkedIn", "Twitter"] [("LinkedIn", "hi")] 0 "daily"]
    (by decide)
    { campaign_id := "a", platform := "P", title := "t",
      content := "c", scheduled_time := 5 }
    (by decide)

/-- C6: `get_upcoming_events` returns exactly (a permutation of) the events
whose scheduled time lies in the inclusive window `[now, now + days]`,
membership is window membership, and the result is non-decreasing in
scheduled time; the event lines of `get_calendar_view` are likewise
non-decreasing in scheduled time. -/
theorem get_upcoming_events_spec (events : List CampaignEvent)
    (now days start vdays : Int) :
    (List.Perm (get_upcoming_events events now days) (events.filter (fun e =>
        now ≤ e.scheduled_time ∧ e.scheduled_time ≤ now + days * secondsPerDay))) ∧
    (∀ e, e ∈ get_upcoming_events events now days ↔
        e ∈ events ∧ now ≤ e.scheduled_time ∧
          e.scheduled_time ≤ now + days * secondsPerDay) ∧
    ((get_upcoming_events events now days).map (fun e => e.scheduled_time)).Pairwise
        (fun a b => a ≤ b) ∧
    ((calendar_view_events events start vdays).map (fun e => e.scheduled_time)).Pairwise
        (fun a b => a ≤ b) := by
  refine ⟨List.perm_insertionSort timeLE _, ?_, ?_, ?_⟩
  · intro e
    rw [get_upcoming_events, List.mem_insertionSort, List.mem_filter]
    simp
  · exact List.Pairwise.map _ (fun a b hab => hab)
      (List.sorted_insertionSort timeLE _)
  · exact List.Pairwise.map _ (fun a b hab => hab)
      (List.sorted_insertionSort timeLE _)

/-- C7: `execute_campaign` produces exactly one post per listed platform whose
mapped content is non-empty, in list order; one log entry is appended per such
platform, carrying the campaign id and status `"executed"`.  Platforms
missing from the mapping or mapped to empty content are silently skipped
(the function is total: no error is raised). -/
theorem execute_campaign_spec (u : Nat → ℚ) (now cid start_time : String)
    (platforms : List String) (cpp : List (String × String)) :
    ((execute_campaign u now cid start_time platforms cpp).1.map (fun r => r.platform)
        = platforms.filter (fun p => ¬ ((cpp.lookup p).getD "" = ""))) ∧
    ((execute_campaign u now cid start_time platforms cpp).2.map (fun l => l.platform)
        = platforms.filter (fun p => ¬ ((cpp.lookup p).getD "" = ""))) ∧
    ((execute_campaign u now cid start_time platforms cpp).1.length
        = (platforms.filter (fun p => ¬ ((cpp.lookup p).getD "" = ""))).length) ∧
    (∀ l ∈ (execute_campaign u now cid start_time platforms cpp).2,
        l.campaign_id = cid ∧ l.status = "executed") := by
  have main : ∀ (ps : List String) (k : Nat),
      ((execute_campaign_go u now cid start_time cpp ps k).1.map (fun r => r.platform)
          = ps.filter (fun p => ¬ ((cpp.lookup p).getD "" = ""))) ∧
      ((execute_campaign_go u now cid start_time cpp ps k).2.map (fun l => l.platform)
          = ps.filter (fun p => ¬ ((cpp.lookup p).getD "" = ""))) ∧
      (∀ l ∈ (execute_campaign_go u now cid start_time cpp ps k).2,
          l.campaign_id = cid ∧ l.status = "executed") := by
    intro ps
    induction ps with
    | nil => intro k; exact ⟨rfl, rfl, fun l hl => absurd hl (List.not_mem_nil l)⟩
    | cons p rest ih =>
        intro k
        by_cases hc : (cpp.lookup p).getD "" = ""
        · have hgo : execute_campaign_go u now cid start_time cpp (p :: rest) k
              = execute_campaign_go u now cid start_time cpp rest k := by
            simp only [execute_campaign_go, hc]
            rw [if_pos trivial]
          have hfil : (p :: rest).filter (fun q => ¬ ((cpp.lookup q).getD "" = ""))
              = rest.filter (fun q => ¬ ((cpp.lookup q).getD "" = "")) := by
            rw [List.filter_cons]
            simp [hc]
          rw [hgo, hfil]
          exact ih k
        · have hgo : execute_campaign_go u now cid start_time cpp (p :: rest) k
              = ((post_to_platform (u (4*k)) (u (4*k+1)) (u (4*k+2)) (u (4*k+3))
                    now p ((cpp.lookup p).getD "") start_time)
                  :: (execute_campaign_go u now cid start_time cpp rest (k+1)).1,
                 { campaign_id := cid, platform := p, status := "executed" }
                  :: (execute_campaign_go u now cid start_time cpp rest (k+1)).2) := by
            simp only [execute_campaign_go]
            rw [if_neg hc]
          have hfil : (p :: rest).filter (fun q => ¬ ((cpp.lookup q).getD "" = ""))
              = p :: rest.filter (fun q => ¬ ((cpp.lookup q).getD "" = "")) := by
            rw [List.filter_cons]
            simp [hc]
          rw [hgo, hfil]
          obtain ⟨ih1, ih2, ih3⟩ := ih (k+1)
          refine ⟨?_, ?_, ?_⟩
          · simp only [List.map_cons, ih1, post_to_platform]
          · simp only [List.map_cons, ih2]
          · intro l hl
            rcases List.mem_cons.mp hl with rfl | hl'
            · exact ⟨rfl, rfl⟩
            · exact ih3 l hl'
  obtain ⟨h1, h2, h3⟩ := main platforms 0
  refine ⟨h1, h2, ?_, h3⟩
  rw [← h1, List.length_map]
  exact rfl

/-- Python truncation agrees with the floor on non-negative values. -/
theorem pyInt_of_nonneg (q : ℚ) (h : 0 ≤ q) : pyInt q = ⌊q⌋ := if_pos h

/-- Python truncation of a non-negative value is non-negative. -/
theorem pyInt_nonneg (q : ℚ) (h : 0 ≤ q) : 0 ≤ pyInt q := by
  rw [pyInt_of_nonneg q h]
  exact Int.floor_nonneg.mpr h

/-- A successful association-list lookup returns one of the stored values. -/
theorem lookup_some_mem {β : Type} :
    ∀ (l : List (String × β)) (p : String) (c : β),
      l.lookup p = some c → c ∈ l.map Prod.snd := by
  intro l
  induction l with
  | nil => intro p c hc; cases hc
  | cons hd tl ih =>
      intro p c hc
      rw [List.lookup] at hc
      cases he : p == hd.1
      · rw [he] at hc
        exact List.mem_cons_of_mem _ (ih p c hc)
      · rw [he] at hc
        simp only [Option.some.injEq] at hc
        rcases hc with rfl
        exact List.mem_cons_self _ _

/-- Every profile the simulator can select has non-negative base reach and
engagement rate. -/
theorem getConfig_nonneg (p : String) :
    0 ≤ (getConfig p).base_reach ∧ 0 ≤ (getConfig p).engagement_rate := by
  unfold getConfig
  cases hl : platform_configs.lookup p with
  | none =>
      constructor <;> norm_num [defaultConfig]
  | some c =>
      have hc : c ∈ platform_configs.map Prod.snd := lookup_some_mem _ p c hl
      simp only [Option.getD_some]
      fin_cases hc <;> constructor <;> norm_num

/-- Sum of the floors of the 0.7/0.2/0.1 split of an integer lies within 2
below the integer. -/
theorem floor_split_bounds (e : ℤ) :
    e - 2 ≤ ⌊(e:ℚ) * (7/10)⌋ + ⌊(e:ℚ) * (2/10)⌋ + ⌊(e:ℚ) * (1/10)⌋ ∧
    ⌊(e:ℚ) * (7/10)⌋ + ⌊(e:ℚ) * (2/10)⌋ + ⌊(e:ℚ) * (1/10)⌋ ≤ e := by
  have h1 : ((e:ℚ) * (7/10)) - 1 < (⌊(e:ℚ) * (7/10)⌋ : ℚ) := Int.sub_one_lt_floor _
  have h2 : ((e:ℚ) * (2/10)) - 1 < (⌊(e:ℚ) * (2/10)⌋ : ℚ) := Int.sub_one_lt_floor _
  have h3 : ((e:ℚ) * (1/10)) - 1 < (⌊(e:ℚ) * (1/10)⌋ : ℚ) := Int.sub_one_lt_floor _
  have g1 : (⌊(e:ℚ) * (7/10)⌋ : ℚ) ≤ (e:ℚ) * (7/10) := Int.floor_le _
  have g2 : (⌊(e:ℚ) * (2/10)⌋ : ℚ) ≤ (e:ℚ) * (2/10) := Int.floor_le _
  have g3 : (⌊(e:ℚ) * (1/10)⌋ : ℚ) ≤ (e:ℚ) * (1/10) := Int.floor_le _
  constructor
  · have hq : ((e - 2 : ℤ) : ℚ)
        < ((⌊(e:ℚ) * (7/10)⌋ + ⌊(e:ℚ) * (2/10)⌋ + ⌊(e:ℚ) * (1/10)⌋ : ℤ) : ℚ) + 1 := by
      push_cast
      linarith
    have := Int.lt_add_one_iff.mp (by exact_mod_cast hq)
    omega
  · have hq : ((⌊(e:ℚ) * (7/10)⌋ + ⌊(e:ℚ) * (2/10)⌋ + ⌊(e:ℚ) * (1/10)⌋ : ℤ) : ℚ)
        ≤ ((e:ℤ):ℚ) := by
      push_cast
      linarith
    exact_mod_cast hq

/-- C4 counterexample: with platform `"LinkedIn"` and draws
`r1 = 0, r2 = 23/40, r3 = r4 = 0`, the simulator computes
`engagements = 209` but `likes = 146, comments = 41, shares = 20`
(truncations, not roundings), whose sum `207` deviates from `engagements`
by 2 — more than the claimed ±1 (and `comments` differs from
`round(209·0.2) = 42`). -/
theorem post_metrics_round_counterexample :
    ¬ ((post_to_platform 0 (23/40) 0 0 "T" "LinkedIn" "hello" "S").metrics.likes
          = pyRound (((post_to_platform 0 (23/40) 0 0 "T" "LinkedIn" "hello" "S").metrics.engagements : ℚ) * (7/10)) ∧
       (post_to_platform 0 (23/40) 0 0 "T" "LinkedIn" "hello" "S").metrics.comments
          = pyRound (((post_to_platform 0 (23/40) 0 0 "T" "LinkedIn" "hello" "S").metrics.engagements : ℚ) * (2/10)) ∧
       (post_to_platform 0 (23/40) 0 0 "T" "LinkedIn" "hello" "S").metrics.shares
          = pyRound (((post_to_platform 0 (23/40) 0 0 "T" "LinkedIn" "hello" "S").metrics.engagements : ℚ) * (1/10)) ∧
       |(post_to_platform 0 (23/40) 0 0 "T" "LinkedIn" "hello" "S").metrics.likes
          + (post_to_platform 0 (23/40) 0 0 "T" "LinkedIn" "hello" "S").metrics.comments
          + (post_to_platform 0 (23/40) 0 0 "T" "LinkedIn" "hello" "S").metrics.shares
          - (post_to_platform 0 (23/40) 0 0 "T" "LinkedIn" "hello" "S").metrics.engagements| ≤ 1) := by
  have hcfg : getConfig "LinkedIn" = ⟨10000, 25/1000, 5000⟩ := rfl
  have hreach : sim_reach "LinkedIn" 0 = 8000 := by
    unfold sim_reach
    rw [hcfg, pyInt_of_nonneg _ (by norm_num)]
    norm_num
  have hengage : sim_engagements "LinkedIn" 0 (23/40) = 209 := by
    unfold sim_engagements
    rw [hreach, hcfg, pyInt_of_nonneg _ (by norm_num)]
    norm_num
  have hl : (post_to_platform 0 (23/40) 0 0 "T" "LinkedIn" "hello" "S").metrics.likes = 146 := by
    show pyInt ((sim_engagements "LinkedIn" 0 (23/40) : ℚ) * (7/10)) = 146
    rw [hengage, pyInt_of_nonneg _ (by norm_num)]
    norm_num
  have hc : (post_to_platform 0 (23/40) 0 0 "T" "LinkedIn" "hello" "S").metrics.comments = 41 := by
    show pyInt ((sim_engagements "LinkedIn" 0 (23/40) : ℚ) * (2/10)) = 41
    rw [hengage, pyInt_of_nonneg _ (by norm_num)]
    norm_num
  have hs : (post_to_platform 0 (23/40) 0 0 "T" "LinkedIn" "hello" "S").metrics.shares = 20 := by
    show pyInt ((sim_engagements "LinkedIn" 0 (23/40) : ℚ) * (1/10)) = 20
    rw [hengage, pyInt_of_nonneg _ (by norm_num)]
    norm_num
  have he : (post_to_platform 0 (23/40) 0 0 "T" "LinkedIn" "hello" "S").metrics.engagements = 209 := by
    show sim_engagements "LinkedIn" 0 (23/40) = 209
    exact hengage
  rintro ⟨-, -, -, habs⟩
  rw [hl, hc, hs, he] at habs
  norm_num at habs

/-- C4 (amended): the simulator computes `likes`, `comments`, `shares` by
truncating (`int(...)`, i.e. floor on these non-negative values) the
0.7/0.2/0.1 split of `engagements`; consequently their sum equals
`engagements` minus at most 2 (deviation in `{0, -1, -2}`, not within ±1),
for any platform, content, and draws in `[0, 1)`. -/
theorem post_metrics_split (r1 r2 r3 r4 : ℚ) (h1 : 0 ≤ r1) (h2 : 0 ≤ r2)
    (now platform content sched : String) :
    ((post_to_platform r1 r2 r3 r4 now platform content sched).metrics.likes
        = ⌊((post_to_platform r1 r2 r3 r4 now platform content sched).metrics.engagements : ℚ) * (7/10)⌋) ∧
    ((post_to_platform r1 r2 r3 r4 now platform content sched).metrics.comments
        = ⌊((post_to_platform r1 r2 r3 r4 now platform content sched).metrics.engagements : ℚ) * (2/10)⌋) ∧
    ((post_to_platform r1 r2 r3 r4 now platform content sched).metrics.shares
        = ⌊((post_to_platform r1 r2 r3 r4 now platform content sched).metrics.engagements : ℚ) * (1/10)⌋) ∧
    ((post_to_platform r1 r2 r3 r4 now platform content sched).metrics.engagements - 2
        ≤ (post_to_platform r1 r2 r3 r4 now platform content sched).metrics.likes
          + (post_to_platform r1 r2 r3 r4 now platform content sched).metrics.comments
          + (post_to_platform r1 r2 r3 r4 now platform content sched).metrics.shares) ∧
    ((post_to_platform r1 r2 r3 r4 now platform content sched).metrics.likes
          + (post_to_platform r1 r2 r3 r4 now platform content sched).metrics.comments
          + (post_to_platform r1 r2 r3 r4 now platform content sched).metrics.shares
        ≤ (post_to_platform r1 r2 r3 r4 now platform content sched).metrics.engagements) := by
  obtain ⟨hb, hr⟩ := getConfig_nonneg platform
  have hreach0 : 0 ≤ sim_reach platform r1 :=
    pyInt_nonneg _ (mul_nonneg hb
      (add_nonneg (by norm_num) (mul_nonneg h1 (by norm_num))))
  have heng0 : 0 ≤ sim_engagements platform r1 r2 :=
    pyInt_nonneg _ (mul_nonneg
      (mul_nonneg (by exact_mod_cast hreach0) hr)
      (add_nonneg (by norm_num) (mul_nonneg h2 (by norm_num))))
  have he0 : (0:ℚ) ≤ ((sim_engagements platform r1 r2 : ℤ) : ℚ) := by
    exact_mod_cast heng0
  have hl : (post_to_platform r1 r2 r3 r4 now platform content sched).metrics.likes
      = ⌊((sim_engagements platform r1 r2 : ℤ) : ℚ) * (7/10)⌋ :=
    pyInt_of_nonneg _ (mul_nonneg he0 (by norm_num))
  have hc : (post_to_platform r1 r2 r3 r4 now platform content sched).metrics.comments
      = ⌊((sim_engagements platform r1 r2 : ℤ) : ℚ) * (2/10)⌋ :=
    pyInt_of_nonneg _ (mul_nonneg he0 (by norm_num))
  have hs : (post_to_platform r1 r2 r3 r4 now platform content sched).metrics.shares
      = ⌊((sim_engagements platform r1 r2 : ℤ) : ℚ) * (1/10)⌋ :=
    pyInt_of_nonneg _ (mul_nonneg he0 (by norm_num))
  obtain ⟨hlow, hhigh⟩ := floor_split_bounds (sim_engagements platform r1 r2)
  refine ⟨hl, hc, hs, ?_, ?_⟩
  · rw [hl, hc, hs]
    exact hlow
  · rw [hl, hc, hs]
    exact hhigh

/-- Witness for `post_metrics_split` at zero draws on `"LinkedIn"`. -/
theorem post_metrics_split_witness :
    (0:ℚ) ≤ 0 ∧
    ((post_to_platform 0 0 0 0 "T" "LinkedIn" "hello" "S").metrics.engagements - 2
        ≤ (post_to_platform 0 0 0 0 "T" "LinkedIn" "hello" "S").metrics.likes
          + (post_to_platform 0 0 0 0 "T" "LinkedIn" "hello" "S").metrics.comments
          + (post_to_platform 0 0 0 0 "T" "LinkedIn" "hello" "S").metrics.shares) :=
  ⟨le_refl 0,
   (post_metrics_split 0 0 0 0 (le_refl 0) (le_refl 0) "T" "LinkedIn" "hello" "S").2.2.2.1⟩

/-- A pattern that is not a prefix of `pre` is not a prefix of `pre ++ dyn`
when it is no longer than `pre`. -/
theorem not_prefix_of_fixed (pat pre dyn : List Char)
    (hlen : pat.length ≤ pre.length) (hnp : ¬ pat <+: pre) :
    ¬ pat <+: pre ++ dyn := by
  intro h
  apply hnp
  rw [List.prefix_iff_eq_take] at h ⊢
  rwa [List.take_append_of_le_length hlen] at h

/-- A pattern whose first character differs from the list's first character is
not a prefix. -/
theorem not_prefix_of_head (pat l : List Char) (c c' : Char)
    (hp : pat.head? = some c) (hl : l.head? = some c') (hne : c ≠ c') :
    ¬ pat <+: l := by
  intro h
  obtain ⟨t, rfl⟩ := h
  cases pat with
  | nil => cases hp
  | cons x xs =>
      simp only [List.head?_cons, Option.some.injEq] at hp
      simp only [List.cons_append, List.head?_cons, Option.some.injEq] at hl
      exact hne (hp ▸ hl ▸ rfl)

/-- C9: a platform entry with `total_clicks = 0` contributes no
conversion-rate line to the report (while its CTR line is present), a
platform entry with `total_clicks > 0` contributes its conversion-rate line,
and every line of a platform's section appears in the full report text. -/
theorem report_conv_rate_spec (genTime : List Char)
    (analytics : List (String × PlatformData)) (p : String) (d : PlatformData)
    (hmem : (p, d) ∈ analytics) :
    (d.total_clicks = 0 →
        (∀ l ∈ platformSection p d, ¬ isConvRateLine l) ∧
        ctrLine d ∈ platformSection p d) ∧
    (0 < d.total_clicks →
        convRateLine d ∈ platformSection p d ∧ isConvRateLine (convRateLine d)) ∧
    (∀ l ∈ platformSection p d, l ∈ generate_performance_report genTime analytics) := by
  refine ⟨?_, ?_, ?_⟩
  · intro h0
    have hnlt : ¬ 0 < d.total_clicks := by
      rw [h0]
      exact lt_irrefl 0
    constructor
    · intro l hl
      rw [platformSection, if_neg hnlt, List.append_nil] at hl
      simp only [List.mem_cons, List.not_mem_nil, or_false] at hl
      rcases hl with rfl | rfl | rfl | rfl | rfl | rfl | rfl | rfl | rfl | rfl
      · decide
      · exact not_prefix_of_head _ _ ' ' '📱' (by decide) rfl (by decide)
      · decide
      · exact not_prefix_of_fixed _ "  Posts:             ".data _
          (by decide) (by decide)
      · exact not_prefix_of_fixed _ "  Total Reach:       ".data _
          (by decide) (by decide)
      · exact not_prefix_of_fixed _ "  Engagements:       ".data _
          (by decide) (by decide)
      · rw [List.append_assoc]
        exact not_prefix_of_fixed _ "  Engagement Rate:   ".data _
          (by decide) (by decide)
      · exact not_prefix_of_fixed _ "  Clicks:            ".data _
          (by decide) (by decide)
      · rw [ctrLine, List.append_assoc]
        exact not_prefix_of_fixed _ "  CTR:               ".data _
          (by decide) (by decide)
      · exact not_prefix_of_fixed _ "  Conversions:       ".data _
          (by decide) (by decide)
    · rw [platformSection, if_neg hnlt, List.append_nil]
      simp
  · intro hpos
    constructor
    · rw [platformSection, if_pos hpos]
      exact List.mem_append_right _ (List.mem_singleton.mpr rfl)
    · exact ⟨fmt2 d.conversion_rate ++ ['%'], (List.append_assoc _ _ _).symm⟩
  · intro l hl
    rw [generate_performance_report]
    refine List.mem_append_left _ (List.mem_append_right _ ?_)
    exact List.mem_flatMap.mpr ⟨(p, d), hmem, hl⟩

/-- Witness for `report_conv_rate_spec` on a one-entry analytics mapping with
zero clicks. -/
theorem report_conv_rate_spec_witness :
    (∀ l ∈ platformSection "LinkedIn" zeroPlatformData, ¬ isConvRateLine l) ∧
    ctrLine zeroPlatformData ∈ platformSection "LinkedIn" zeroPlatformData :=
  (report_conv_rate_spec "ts".data [("LinkedIn", zeroPlatformData)] "LinkedIn"
      zeroPlatformData (List.mem_singleton.mpr rfl)).1 rfl
